import Mathlib

/-!
Verification of the tmucks snapshot store (`src/config.rs`) and interactive
session state machine (`src/app.rs`, `src/tui.rs`).

The filesystem visible to the program is modelled as the live config file
(`~/.tmux.conf`, an optional byte list) together with the snapshot directory
(`~/.config/tmucks/`, an association list from file names to byte contents).
Store operations return the resulting filesystem paired with a result, so
"performs no write" is a provable equality on the filesystem component.
-/

namespace Tmucks

/-- File contents: opaque bytes. -/
abbrev Bytes := List Nat

/-- The filesystem state the program touches: the live `~/.tmux.conf` file
(`none` when absent) and the files of the snapshot directory. -/
structure FS where
  live : Option Bytes
  snapshots : List (String × Bytes)
  deriving DecidableEq, Repr

/-- Directory lookup: contents of the file named `n`, if present. -/
def lookupSnap : List (String × Bytes) → String → Option Bytes
  | [], _ => none
  | (m, c) :: rest, n => if m = n then some c else lookupSnap rest n

/-- Model of `fs::copy(live, dir/n)`: overwrite the file named `n` if present,
else create it. -/
def writeSnap : List (String × Bytes) → String → Bytes → List (String × Bytes)
  | [], n, b => [(n, b)]
  | (m, c) :: rest, n, b =>
      if m = n then (n, b) :: rest else (m, c) :: writeSnap rest n b

/-- Model of `fs::remove_file(dir/n)`. -/
def removeSnap : List (String × Bytes) → String → List (String × Bytes)
  | [], _ => []
  | (m, c) :: rest, n => if m = n then rest else (m, c) :: removeSnap rest n

/-- The error values produced by `ConfigManager` (each `Err(...)` site in
`src/config.rs`), by message. -/
inductive ConfigError
  | configNotFound (name : String)
  | noTmuxConf
  | alreadyExists (name : String)
  | doesNotExist (name : String)
  deriving DecidableEq, Repr

/-- The error message carried by each error, as formatted in `src/config.rs`. -/
def errMsg : ConfigError → String
  | .configNotFound name => "Config file not found: " ++ name
  | .noTmuxConf => "No tmux config file found at ~/.tmux.conf"
  | .alreadyExists name =>
      "Config \x27" ++ name ++
        "\x27 already exists. Use \x27update\x27 command to overwrite an existing config."
  | .doesNotExist name =>
      "Config \x27" ++ name ++
        "\x27 does not exist. Use \x27save\x27 command to create a new config."

/-- The spec vocabulary of error kinds (section 7 of the spec). -/
inductive ErrKind
  | notFound
  | alreadyExists
  | ioError
  deriving DecidableEq, Repr

/-- Which spec error kind each concrete error belongs to. -/
def errKind : ConfigError → ErrKind
  | .configNotFound _ => .notFound
  | .noTmuxConf => .notFound
  | .alreadyExists _ => .alreadyExists
  | .doesNotExist _ => .notFound

/-- Lexicographic comparison of character lists. Rust compares `String`s by
byte order, which for UTF-8 coincides with code-point order, so comparing
the `Char` sequences is faithful. (Core `String` order is not used because
its comparison functions do not reduce in the kernel.) -/
def charListLe : List Char → List Char → Bool
  | [], _ => true
  | _ :: _, [] => false
  | a :: as, b :: bs => if a < b then true else if a = b then charListLe as bs else false

/-- Rust `String` ordering (`a <= b`). -/
def strLe (a b : String) : Bool := charListLe a.data b.data

/-- Test whether `a` is a prefix of `b`, on character lists. -/
def prefixB : List Char → List Char → Bool
  | [], _ => true
  | _ :: _, [] => false
  | a :: as, b :: bs => a = b && prefixB as bs

/-- Rust `str::ends_with`. -/
def strEndsWith (s p : String) : Bool := prefixB p.data.reverse s.data.reverse

/-- Rust `str::trim`: strip whitespace from both ends. -/
def strTrim (s : String) : String :=
  ⟨((s.data.dropWhile Char.isWhitespace).reverse.dropWhile Char.isWhitespace).reverse⟩

/-- Rust `String::push`. -/
def strPush (s : String) (c : Char) : String := ⟨s.data ++ [c]⟩

/-- Rust `String::pop` (the popped character is discarded at the one call
site, the Backspace arm). -/
def strPop (s : String) : String := ⟨s.data.dropLast⟩

/-- Insertion into a lexicographically sorted list of names. -/
def insertSorted (s : String) : List String → List String
  | [] => [s]
  | t :: ts => if strLe s t then s :: t :: ts else t :: insertSorted s ts

/-- Rust `configs.sort()`: lexicographic sort of the file names. -/
def sortNames : List String → List String
  | [] => []
  | s :: ss => insertSorted s (sortNames ss)

/-- Model of `ConfigManager::read_configs`: the sorted names of the files in the
snapshot directory. -/
def readConfigs (fs : FS) : List String :=
  sortNames (fs.snapshots.map Prod.fst)

/-- Model of `ConfigManager::apply_config`: copy the named snapshot over the live
file. (The best-effort `tmux source-file` call has no filesystem effect
and its failure is swallowed; it is not modelled.) -/
def apply_config (fs : FS) (name : String) : FS × Except ConfigError Unit :=
  match lookupSnap fs.snapshots name with
  | none => (fs, .error (.configNotFound name))
  | some bytes => ({ fs with live := some bytes }, .ok ())

/-- Model of `ConfigManager::delete_config`. -/
def delete_config (fs : FS) (name : String) : FS × Except ConfigError Unit :=
  if (lookupSnap fs.snapshots name).isSome then
    ({ fs with snapshots := removeSnap fs.snapshots name }, .ok ())
  else
    (fs, .error (.configNotFound name))

/-- Model of `ConfigManager::save_current_config`: live file must exist, target must
not; then copy live bytes to the new snapshot. -/
def save_current_config (fs : FS) (name : String) : FS × Except ConfigError Unit :=
  match fs.live with
  | none => (fs, .error .noTmuxConf)
  | some bytes =>
      if (lookupSnap fs.snapshots name).isSome then
        (fs, .error (.alreadyExists name))
      else
        ({ fs with snapshots := writeSnap fs.snapshots name bytes }, .ok ())

/-- Model of `ConfigManager::update_config`: live file must exist, target must already
exist; then copy live bytes over the snapshot. -/
def update_config (fs : FS) (name : String) : FS × Except ConfigError Unit :=
  match fs.live with
  | none => (fs, .error .noTmuxConf)
  | some bytes =>
      if (lookupSnap fs.snapshots name).isSome then
        ({ fs with snapshots := writeSnap fs.snapshots name bytes }, .ok ())
      else
        (fs, .error (.doesNotExist name))

/-- Input mode enumeration `InputMode` from `src/app.rs` (spec names: Browsing / EnteringSaveName /
ConfirmingUpdate). -/
inductive InputMode
  | Normal
  | Saving
  | UpdateConfirm
  deriving DecidableEq, Repr

/-- The session state `App` from `src/app.rs`. `configs` mirrors
`config_manager.configs` (the cached listing); `selection` mirrors
`list_state.selected()`. Times are in milliseconds. The constant
`default_status_message` field is modelled by `defaultStatusMessage`. -/
structure App where
  configs : List String
  selection : Option Nat
  status_message : String
  input_mode : InputMode
  input_buffer : String
  pending_update_config : Option String
  status_message_time : Option Nat
  deriving DecidableEq, Repr

/-- The fixed default status message from `App::new`. -/
def defaultStatusMessage : String :=
  "use j/k to navigate, enter to apply config, s to save current, u to update existing, d to delete, q to quit"

/-- Model of `App::new`: fresh session over the store listing of `fs`. -/
def App.new (fs : FS) : App :=
  let cfgs := readConfigs fs
  { configs := cfgs
    selection := if cfgs.isEmpty then none else some 0
    status_message := defaultStatusMessage
    input_mode := .Normal
    input_buffer := ""
    pending_update_config := none
    status_message_time := none }

/-- Model of `App::next`. -/
def App.next (app : App) : App :=
  if app.configs.isEmpty then app
  else
    let i :=
      match app.selection with
      | some i => if i ≥ app.configs.length - 1 then 0 else i + 1
      | none => 0
    { app with selection := some i }

/-- Model of `App::previous`. -/
def App.previous (app : App) : App :=
  if app.configs.isEmpty then app
  else
    let i :=
      match app.selection with
      | some i => if i = 0 then app.configs.length - 1 else i - 1
      | none => 0
    { app with selection := some i }

/-- Model of `App::set_status_message` at current time `now`. -/
def setStatusMessage (app : App) (message : String) (now : Nat) : App :=
  { app with status_message := message, status_message_time := some now }

/-- Model of `App::update_status_message`: lazily expire the notification once
5 seconds have elapsed. -/
def updateStatusMessage (app : App) (now : Nat) : App :=
  match app.status_message_time with
  | some messageTime =>
      if now - messageTime ≥ 5000 then
        { app with status_message := defaultStatusMessage,
                   status_message_time := none }
      else app
  | none => app

/-- Model of `App::apply_config`: the filesystem result, updated session, and the
error propagated to the caller (mirroring Rust `Result`). -/
def App.applyConfig (fs : FS) (app : App) (now : Nat) :
    FS × App × Option ConfigError :=
  match app.selection with
  | none => (fs, app, none)
  | some selected =>
      match app.configs.get? selected with
      | none => (fs, app, none)
      | some configName =>
          match apply_config fs configName with
          | (fs1, .error e) => (fs1, app, some e)
          | (fs1, .ok _) =>
              (fs1, setStatusMessage app ("+ applied config: " ++ configName) now,
               none)

/-- Model of `App::delete_config`: delete, then refresh the listing
(`ConfigManager::new()`) and clamp the selection. -/
def App.deleteConfig (fs : FS) (app : App) (now : Nat) :
    FS × App × Option ConfigError :=
  match app.selection with
  | none => (fs, app, none)
  | some selected =>
      match app.configs.get? selected with
      | none => (fs, app, none)
      | some configName =>
          match delete_config fs configName with
          | (fs1, .error e) => (fs1, app, some e)
          | (fs1, .ok _) =>
              let app1 := setStatusMessage app ("+ deleted config: " ++ configName) now
              let cfgs := readConfigs fs1
              let app2 := { app1 with configs := cfgs }
              let app3 :=
                if cfgs.isEmpty then { app2 with selection := none }
                else if selected ≥ cfgs.length then
                  { app2 with selection := some (cfgs.length - 1) }
                else app2
              (fs1, app3, none)

/-- Model of `App::save_current_config`: save under `name`, then refresh the listing
and select index 0 when non-empty. -/
def App.saveCurrentConfig (fs : FS) (app : App) (name : String) (now : Nat) :
    FS × App × Option ConfigError :=
  match save_current_config fs name with
  | (fs1, .error e) => (fs1, app, some e)
  | (fs1, .ok _) =>
      let app1 := setStatusMessage app ("+ saved current config as: " ++ name) now
      let cfgs := readConfigs fs1
      let app2 := { app1 with configs := cfgs }
      let app3 :=
        if cfgs.isEmpty then app2 else { app2 with selection := some 0 }
      (fs1, app3, none)

/-- Model of `App::start_update_mode`. -/
def startUpdateMode (app : App) (now : Nat) : App :=
  match app.selection with
  | some selected =>
      match app.configs.get? selected with
      | some configName =>
          { app with pending_update_config := some configName,
                     input_mode := .UpdateConfirm }
      | none => setStatusMessage app "- no config selected to update" now
  | none => setStatusMessage app "- no config selected to update" now

/-- Model of `App::confirm_update`. Note the `take()` before the fallible
`update_config` call and the early return on its error: on the error path
`input_mode` is not reset. -/
def confirmUpdate (fs : FS) (app : App) (now : Nat) :
    FS × App × Option ConfigError :=
  match app.pending_update_config with
  | some configName =>
      let app1 := { app with pending_update_config := none }
      match update_config fs configName with
      | (fs1, .error e) => (fs1, app1, some e)
      | (fs1, .ok _) =>
          let app2 := setStatusMessage app1
            ("+ updated config \x27" ++ configName ++ "\x27 with current ~/.tmux.conf") now
          (fs1, { app2 with input_mode := .Normal }, none)
  | none => (fs, { app with input_mode := .Normal }, none)

/-- Model of `App::cancel_update`. -/
def cancelUpdate (app : App) : App :=
  { app with pending_update_config := none
             input_mode := .Normal
             status_message := defaultStatusMessage
             status_message_time := none }

/-- Name normalization `ensure_conf_extension` from `src/cli.rs`; the same expression is inlined
in the Enter arm of the Saving mode in `src/tui.rs`. -/
def ensure_conf_extension (name : String) : String :=
  if strEndsWith name ".conf" then name else name ++ ".conf"

/-- The key events the `run_app` loop in `src/tui.rs` distinguishes. -/
inductive KeyEvent
  | charKey (c : Char)
  | enter
  | esc
  | backspace
  | down
  | up
  | otherKey
  deriving DecidableEq, Repr

/-- The `if let Err(e) = ... { app.set_status_message(format!("- error: {}", e)) }`
pattern of `run_app`. -/
def catchErr (now : Nat) : FS × App × Option ConfigError → FS × App
  | (fs, app, none) => (fs, app)
  | (fs, app, some e) =>
      (fs, setStatusMessage app ("- error: " ++ errMsg e) now)

/-- One dispatch of `run_app` in `src/tui.rs` on key event `ev` at time
`now` (after the top-of-loop tick): `none` means the loop returns (quit). -/
def tuiStep (now : Nat) (ev : KeyEvent) : FS × App → Option (FS × App) :=
  fun (fs, app) =>
    match app.input_mode with
    | .Normal =>
        match ev with
        | .charKey c =>
            if c = 'q' then none
            else if c = 'j' then some (fs, app.next)
            else if c = 'k' then some (fs, app.previous)
            else if c = 'd' then some (catchErr now (App.deleteConfig fs app now))
            else if c = 's' then
              some (fs, { app with input_mode := .Saving
                                   input_buffer := ""
                                   status_message := "enter config name (without .conf): " })
            else if c = 'u' then some (fs, startUpdateMode app now)
            else some (fs, app)
        | .down => some (fs, app.next)
        | .up => some (fs, app.previous)
        | .enter => some (catchErr now (App.applyConfig fs app now))
        | _ => some (fs, app)
    | .Saving =>
        match ev with
        | .enter =>
            if strTrim app.input_buffer = "" then
              some (fs, { setStatusMessage app "- error: name cannot be empty" now with
                            input_mode := .Normal, input_buffer := "" })
            else
              let name := ensure_conf_extension app.input_buffer
              let (fs1, app1) := catchErr now (App.saveCurrentConfig fs app name now)
              some (fs1, { app1 with input_mode := .Normal, input_buffer := "" })
        | .esc =>
            some (fs, { app with input_mode := .Normal
                                 input_buffer := ""
                                 status_message := defaultStatusMessage })
        | .charKey c =>
            some (fs, { app with input_buffer := strPush app.input_buffer c })
        | .backspace =>
            some (fs, { app with input_buffer := strPop app.input_buffer })
        | _ => some (fs, app)
    | .UpdateConfirm =>
        match ev with
        | .charKey c =>
            if c = 'y' ∨ c = 'Y' then some (catchErr now (confirmUpdate fs app now))
            else if c = 'n' ∨ c = 'N' then some (fs, cancelUpdate app)
            else some (fs, app)
        | .esc => some (fs, cancelUpdate app)
        | _ => some (fs, app)

/-- One full iteration of the `run_app` loop: the lazy notification tick,
then the event dispatch. -/
def loopIter (now : Nat) (ev : KeyEvent) (s : FS × App) : Option (FS × App) :=
  tuiStep now ev (s.1, updateStatusMessage s.2 now)

/-- Session states reachable from a fresh `App::new` over some initial
filesystem by iterations of the interactive loop. -/
inductive Reachable : FS × App → Prop
  | init (fs : FS) : Reachable (fs, App.new fs)
  | step {s s' : FS × App} (now : Nat) (ev : KeyEvent) :
      Reachable s → loopIter now ev s = some s' → Reachable s'

/-! ## Store lemmas -/

/-- Writing a file and looking it up again yields the written bytes. -/
theorem lookupSnap_writeSnap_self (l : List (String × Bytes)) (n : String) (b : Bytes) :
    lookupSnap (writeSnap l n b) n = some b := by
  induction l with
  | nil => simp [writeSnap, lookupSnap]
  | cons hd tl ih =>
      obtain ⟨m, c⟩ := hd
      by_cases h : m = n
      · simp [writeSnap, lookupSnap, h]
      · simp [writeSnap, lookupSnap, h, ih]

/-- C3: `save(name)` fails with `NotFound` when the live config file is
missing, fails with `AlreadyExists` when the snapshot already exists (the
live-file check runs first, so this case presupposes a live file) and then
writes nothing, and a second `save` with the same name fails with
`AlreadyExists` leaving the snapshot holding the first call's bytes. -/
theorem save_spec (fs : FS) (name : String) :
    (fs.live = none →
      save_current_config fs name = (fs, .error .noTmuxConf) ∧
      errKind .noTmuxConf = .notFound) ∧
    (fs.live.isSome → (lookupSnap fs.snapshots name).isSome →
      save_current_config fs name = (fs, .error (.alreadyExists name)) ∧
      errKind (.alreadyExists name) = .alreadyExists) ∧
    (∀ b : Bytes, fs.live = some b → (save_current_config fs name).2 = .ok () →
      (save_current_config (save_current_config fs name).1 name).2 =
          .error (.alreadyExists name) ∧
      (save_current_config (save_current_config fs name).1 name).1 =
          (save_current_config fs name).1 ∧
      lookupSnap (save_current_config fs name).1.snapshots name = some b) := by
  refine ⟨?_, ?_, ?_⟩
  · intro h
    simp [save_current_config, h, errKind]
  · intro h1 h2
    obtain ⟨b, hb⟩ := Option.isSome_iff_exists.mp h1
    simp [save_current_config, hb, h2, errKind]
  · intro b hb hok
    by_cases h2 : (lookupSnap fs.snapshots name).isSome
    · simp [save_current_config, hb, h2] at hok
    · simp [save_current_config, hb, h2, lookupSnap_writeSnap_self]

/-- Witness for `save_spec`: a missing live file, and a double save into an
empty store. -/
theorem save_spec_witness :
    save_current_config { live := none, snapshots := [] } "x.conf" =
        ({ live := none, snapshots := [] }, .error .noTmuxConf) ∧
    (save_current_config
        (save_current_config { live := some [1, 2], snapshots := [] } "n.conf").1
        "n.conf").2 = .error (.alreadyExists "n.conf") ∧
    lookupSnap
        (save_current_config { live := some [1, 2], snapshots := [] } "n.conf").1.snapshots
        "n.conf" = some [1, 2] := by
  have h1 := (save_spec { live := none, snapshots := [] } "x.conf").1 rfl
  have h2 := (save_spec { live := some [1, 2], snapshots := [] } "n.conf").2.2
    [1, 2] rfl rfl
  exact ⟨h1.1, h2.1, h2.2.2⟩

/-- C4: `update(name)` on a snapshot that does not exist fails with a
`NotFound`-kind error and performs no filesystem write, and it also fails
with `NotFound` when the live config file is missing. -/
theorem update_spec (fs : FS) (name : String) :
    (lookupSnap fs.snapshots name = none →
      (update_config fs name).1 = fs ∧
      ∃ e, (update_config fs name).2 = .error e ∧ errKind e = .notFound) ∧
    (fs.live = none →
      update_config fs name = (fs, .error .noTmuxConf) ∧
      errKind .noTmuxConf = .notFound) := by
  constructor
  · intro h
    cases hb : fs.live with
    | none => exact ⟨by simp [update_config, hb], .noTmuxConf, by simp [update_config, hb], rfl⟩
    | some b =>
        refine ⟨by simp [update_config, hb, h], .doesNotExist name, by simp [update_config, hb, h], rfl⟩
  · intro h
    simp [update_config, h, errKind]

/-- Witness for `update_spec`: updating a never-saved name with the live
file present, and with the live file missing. -/
theorem update_spec_witness :
    (update_config { live := some [1], snapshots := [] } "x.conf").1 =
        { live := some [1], snapshots := [] } ∧
    (update_config { live := some [1], snapshots := [] } "x.conf").2 =
        .error (.doesNotExist "x.conf") ∧
    update_config { live := none, snapshots := [("x.conf", [])] } "x.conf" =
        ({ live := none, snapshots := [("x.conf", [])] }, .error .noTmuxConf) := by
  have h1 := (update_spec { live := some [1], snapshots := [] } "x.conf").1 rfl
  have h2 := (update_spec { live := none, snapshots := [("x.conf", [])] } "x.conf").2 rfl
  exact ⟨h1.1, rfl, h2.1⟩

/-- C5: a notification set at time `t0` (milliseconds) still reads as its
custom text when the tick runs at `t0 + 3000`, and any tick with elapsed
time at least 5000 ms (including exactly 5000) replaces it with the fixed
default text and clears the stored timestamp. -/
theorem notification_expiry (app : App) (msg : String) (t0 : Nat) :
    (updateStatusMessage (setStatusMessage app msg t0) (t0 + 3000)).status_message = msg ∧
    (updateStatusMessage (setStatusMessage app msg t0) (t0 + 3000)).status_message_time = some t0 ∧
    (∀ now : Nat, 5000 ≤ now - t0 →
      (updateStatusMessage (setStatusMessage app msg t0) now).status_message =
          defaultStatusMessage ∧
      (updateStatusMessage (setStatusMessage app msg t0) now).status_message_time = none) := by
  refine ⟨?_, ?_, ?_⟩
  · have h : ¬ (t0 + 3000 - t0 ≥ 5000) := by omega
    simp [updateStatusMessage, setStatusMessage, h]
  · have h : ¬ (t0 + 3000 - t0 ≥ 5000) := by omega
    simp [updateStatusMessage, setStatusMessage, h]
  · intro now hnow
    simp [updateStatusMessage, setStatusMessage, hnow]

/-- Witness for `notification_expiry`: a message set at 1000 ms checked at
4000 ms and at 6000 ms. -/
theorem notification_expiry_witness :
    (updateStatusMessage
        (setStatusMessage (App.new { live := none, snapshots := [] }) "hello" 1000)
        (1000 + 3000)).status_message = "hello" ∧
    (updateStatusMessage
        (setStatusMessage (App.new { live := none, snapshots := [] }) "hello" 1000)
        6000).status_message = defaultStatusMessage ∧
    (updateStatusMessage
        (setStatusMessage (App.new { live := none, snapshots := [] }) "hello" 1000)
        6000).status_message_time = none := by
  have h := notification_expiry (App.new { live := none, snapshots := [] }) "hello" 1000
  exact ⟨h.1, (h.2.2 6000 (by decide)).1, (h.2.2 6000 (by decide)).2⟩

/-! ## Navigation lemmas -/

/-- Navigation never touches the cached listing. -/
theorem App.next_configs (app : App) : (App.next app).configs = app.configs := by
  unfold App.next
  split <;> rfl

/-- Navigation never touches the cached listing. -/
theorem App.previous_configs (app : App) : (App.previous app).configs = app.configs := by
  unfold App.previous
  split <;> rfl

/-- On a valid selection, `next` advances by one modulo the list length. -/
theorem App.next_selection (app : App) (i : Nat)
    (hsel : app.selection = some i) (hi : i < app.configs.length) :
    (App.next app).selection = some ((i + 1) % app.configs.length) := by
  have hne : app.configs.isEmpty = false := by
    cases h : app.configs with
    | nil => rw [h] at hi; simp at hi
    | cons hd tl => rfl
  simp only [App.next, hne, Bool.false_eq_true, if_false, hsel]
  congr 1
  by_cases h : i ≥ app.configs.length - 1
  · have heq : i + 1 = app.configs.length := by omega
    rw [if_pos h, heq, Nat.mod_self]
  · rw [if_neg h, Nat.mod_eq_of_lt (by omega)]

/-- On a valid selection, `previous` steps back by one modulo the length,
expressed as adding `len - 1`. -/
theorem App.previous_selection (app : App) (i : Nat)
    (hsel : app.selection = some i) (hi : i < app.configs.length) :
    (App.previous app).selection =
      some ((i + (app.configs.length - 1)) % app.configs.length) := by
  have hne : app.configs.isEmpty = false := by
    cases h : app.configs with
    | nil => rw [h] at hi; simp at hi
    | cons hd tl => rfl
  simp only [App.previous, hne, Bool.false_eq_true, if_false, hsel]
  congr 1
  by_cases h : i = 0
  · rw [if_pos h, h, Nat.zero_add, Nat.mod_eq_of_lt (by omega)]
  · have heq : i + (app.configs.length - 1) = (i - 1) + app.configs.length := by omega
    rw [if_neg h, heq, Nat.add_mod_right, Nat.mod_eq_of_lt (by omega)]

/-- Iterating `next` `k` times moves a valid selection forward by `k`
modulo the length, and leaves the listing alone. -/
theorem App.next_iterate (app : App) (i k : Nat)
    (hsel : app.selection = some i) (hi : i < app.configs.length) :
    (App.next^[k] app).configs = app.configs ∧
    (App.next^[k] app).selection = some ((i + k) % app.configs.length) := by
  induction k with
  | zero => exact ⟨rfl, by simpa [Nat.mod_eq_of_lt hi] using hsel⟩
  | succ k ih =>
      obtain ⟨hc, hs⟩ := ih
      have hlen : 0 < app.configs.length := by omega
      have hlt : (i + k) % app.configs.length < app.configs.length := Nat.mod_lt _ hlen
      rw [Function.iterate_succ_apply']
      refine ⟨by rw [App.next_configs, hc], ?_⟩
      have hstep := App.next_selection (App.next^[k] app) ((i + k) % app.configs.length)
        hs (by rw [hc]; exact hlt)
      rw [hstep, hc, Nat.mod_add_mod]
      congr 1

/-- Iterating `previous` `k` times moves a valid selection forward by
`k * (len - 1)` modulo the length, and leaves the listing alone. -/
theorem App.previous_iterate (app : App) (i k : Nat)
    (hsel : app.selection = some i) (hi : i < app.configs.length) :
    (App.previous^[k] app).configs = app.configs ∧
    (App.previous^[k] app).selection =
      some ((i + k * (app.configs.length - 1)) % app.configs.length) := by
  induction k with
  | zero => exact ⟨rfl, by simpa [Nat.mod_eq_of_lt hi] using hsel⟩
  | succ k ih =>
      obtain ⟨hc, hs⟩ := ih
      have hlen : 0 < app.configs.length := by omega
      have hlt : (i + k * (app.configs.length - 1)) % app.configs.length <
          app.configs.length := Nat.mod_lt _ hlen
      rw [Function.iterate_succ_apply']
      refine ⟨by rw [App.previous_configs, hc], ?_⟩
      have hstep := App.previous_selection (App.previous^[k] app)
        ((i + k * (app.configs.length - 1)) % app.configs.length)
        hs (by rw [hc]; exact hlt)
      rw [hstep, hc, Nat.mod_add_mod]
      congr 1
      ring_nf

/-- C6: on a non-empty list with a valid starting selection, `len`
applications of select-next return the selection to its starting index,
and likewise for select-previous. -/
theorem select_wraparound (app : App) (i : Nat)
    (hne : app.configs ≠ []) (hsel : app.selection = some i)
    (hi : i < app.configs.length) :
    (App.next^[app.configs.length] app).selection = some i ∧
    (App.previous^[app.configs.length] app).selection = some i := by
  obtain ⟨-, h1⟩ := App.next_iterate app i app.configs.length hsel hi
  obtain ⟨-, h2⟩ := App.previous_iterate app i app.configs.length hsel hi
  constructor
  · rw [h1, Nat.add_mod_right, Nat.mod_eq_of_lt hi]
  · rw [h2, Nat.add_mul_mod_self_left, Nat.mod_eq_of_lt hi]

/-- C6 witness: three snapshots, starting selection 0. -/
def fsW6 : FS :=
  { live := some [1], snapshots := [("a.conf", [2]), ("b.conf", [3]), ("c.conf", [4])] }

/-- Witness for `select_wraparound` at a concrete session. -/
theorem select_wraparound_witness :
    (App.next^[(App.new fsW6).configs.length] (App.new fsW6)).selection = some 0 ∧
    (App.previous^[(App.new fsW6).configs.length] (App.new fsW6)).selection = some 0 :=
  select_wraparound (App.new fsW6) 0 (by decide) (by decide) (by decide)

/-- C7: with an empty cached snapshot list, select-next and select-previous
leave the whole session state unchanged (so a `none` selection stays
`none`); the guard returns before any index arithmetic, which is what rules
out the underflow panic in the source. -/
theorem nav_empty_noop (app : App) (h : app.configs = []) :
    App.next app = app ∧ App.previous app = app := by
  constructor <;> simp [App.next, App.previous, h]

/-- Witness for `nav_empty_noop` on a fresh session over an empty store. -/
theorem nav_empty_noop_witness :
    App.next (App.new { live := none, snapshots := [] }) =
      App.new { live := none, snapshots := [] } ∧
    App.previous (App.new { live := none, snapshots := [] }) =
      App.new { live := none, snapshots := [] } :=
  nav_empty_noop (App.new { live := none, snapshots := [] }) (by decide)

/-! ## Delete-selected and save-confirm -/

/-- C8: when delete-selected succeeds with old selection index `i`, the
snapshot list is fully reloaded from the store (the listing of the
filesystem with the named file removed) and the new selection is `none` on
an empty reload, else `some (min i (len - 1))`. -/
theorem delete_selected_reload_and_clamp (fs : FS) (app : App) (now : Nat)
    (i : Nat) (name : String)
    (hsel : app.selection = some i) (hname : app.configs.get? i = some name)
    (hdisk : (lookupSnap fs.snapshots name).isSome = true) :
    (App.deleteConfig fs app now).1 =
        { fs with snapshots := removeSnap fs.snapshots name } ∧
    (App.deleteConfig fs app now).2.1.configs =
        readConfigs { fs with snapshots := removeSnap fs.snapshots name } ∧
    (App.deleteConfig fs app now).2.1.selection =
        (if readConfigs { fs with snapshots := removeSnap fs.snapshots name } = []
         then none
         else some (min i
           ((readConfigs { fs with snapshots := removeSnap fs.snapshots name }).length - 1))) ∧
    (App.deleteConfig fs app now).2.2 = none := by
  simp only [App.deleteConfig, hsel, hname, delete_config, hdisk, if_true]
  set cfgs := readConfigs { fs with snapshots := removeSnap fs.snapshots name } with hcfgs
  by_cases hemp : cfgs.isEmpty
  · have : cfgs = [] := List.isEmpty_iff.mp hemp
    simp [hemp, this]
  · have hne : cfgs ≠ [] := fun h => hemp (List.isEmpty_iff.mpr h)
    have hlen : 0 < cfgs.length := List.length_pos.mpr hne
    by_cases hge : i ≥ cfgs.length
    · have : min i (cfgs.length - 1) = cfgs.length - 1 := by omega
      simp [hemp, hne, hge, this]
    · have : min i (cfgs.length - 1) = i := by omega
      simp [hemp, hne, hge, this, setStatusMessage, hsel]

/-- C8 witness: the spec scenario with `a.conf`, `b.conf`, `c.conf` and
selection 0: after delete the listing is `b.conf`, `c.conf` and the
selection is index 0, now naming `b.conf`. -/
theorem delete_selected_witness :
    (App.deleteConfig fsW6 (App.new fsW6) 0).2.1.selection = some 0 ∧
    (App.deleteConfig fsW6 (App.new fsW6) 0).2.1.configs = ["b.conf", "c.conf"] ∧
    (App.deleteConfig fsW6 (App.new fsW6) 0).2.1.configs.get? 0 = some "b.conf" := by
  have h := delete_selected_reload_and_clamp fsW6 (App.new fsW6) 0 0 "a.conf"
    (by decide) (by decide) (by decide)
  refine ⟨?_, ?_, ?_⟩
  · rw [h.2.2.1]; decide
  · rw [h.2.1]; decide
  · rw [h.2.1]; decide

/-- C10: on save confirm with a buffer that trims to non-empty, the
snapshot actually created is named by the untrimmed buffer (with `.conf`
appended when absent) and holds the live file's bytes; whitespace around
the buffer is preserved in the name. -/
theorem save_confirm_uses_untrimmed_name (fs : FS) (app : App) (now : Nat) (b : Bytes)
    (hmode : app.input_mode = .Saving)
    (hbuf : ¬ (strTrim app.input_buffer = ""))
    (hlive : fs.live = some b)
    (hfree : lookupSnap fs.snapshots (ensure_conf_extension app.input_buffer) = none) :
    ∃ fs1 app1, tuiStep now .enter (fs, app) = some (fs1, app1) ∧
      fs1.snapshots = writeSnap fs.snapshots (ensure_conf_extension app.input_buffer) b ∧
      lookupSnap fs1.snapshots (ensure_conf_extension app.input_buffer) = some b ∧
      app1.input_mode = .Normal := by
  have hfree2 : (lookupSnap fs.snapshots (ensure_conf_extension app.input_buffer)).isSome = false := by
    rw [hfree]; rfl
  obtain ⟨cfg, sel, sm, im, ib, pu, st⟩ := app
  simp only at hmode hbuf hfree hfree2
  subst hmode
  delta tuiStep
  dsimp only
  rw [if_neg hbuf]
  dsimp only [App.saveCurrentConfig]
  rw [show (save_current_config fs (ensure_conf_extension ib)) =
    ({ fs with snapshots := writeSnap fs.snapshots (ensure_conf_extension ib) b }, .ok ()) from by
      simp [save_current_config, hlive, hfree2]]
  dsimp only [catchErr]
  exact ⟨_, _, rfl, rfl, lookupSnap_writeSnap_self _ _ _, rfl⟩

/-- C10 witness: the buffer `" work "` produces a snapshot literally named
`" work .conf"`. -/
theorem save_confirm_untrimmed_witness :
    ensure_conf_extension " work " = " work .conf" ∧
    (∃ fs1 app1,
      tuiStep 0 .enter
        ({ live := some [9], snapshots := [] },
         { App.new { live := some [9], snapshots := [] } with
             input_mode := .Saving, input_buffer := " work " }) = some (fs1, app1) ∧
      fs1.snapshots = writeSnap [] " work .conf" [9] ∧
      lookupSnap fs1.snapshots " work .conf" = some [9] ∧
      app1.input_mode = .Normal) := by
  constructor
  · decide
  · have h := save_confirm_uses_untrimmed_name
      { live := some [9], snapshots := [] }
      { App.new { live := some [9], snapshots := [] } with
          input_mode := .Saving, input_buffer := " work " }
      0 [9] rfl (by decide) rfl (by decide)
    have hname : ensure_conf_extension " work " = " work .conf" := by decide
    simpa [hname] using h

/-! ## The failed-update trace

With one snapshot on disk and no live `~/.tmux.conf`, pressing `u` and then
`y` drives the session into confirm mode and then through a failing
`update_config` call. `confirm_update` takes the pending name before the
fallible call and returns early on its error, skipping the reset of
`input_mode`. -/

/-- Initial filesystem for the failed-update trace: one snapshot, no live
config file. -/
def fsB : FS := { live := none, snapshots := [("a.conf", [])] }

/-- Session state after begin-update (`u`) on `a.conf`. -/
def stuckPre : FS × App :=
  (loopIter 0 (.charKey 'u') (fsB, App.new fsB)).get (by decide)

/-- Session state after confirm-yes (`y`) whose `update_config` call fails
because the live config file is missing. -/
def stuckPost : FS × App :=
  (loopIter 0 (.charKey 'y') stuckPre).get (by decide)

/-- The failed-update trace stays inside the reachable states of the loop. -/
theorem reachable_stuckPost : Reachable stuckPost := by
  have h0 : Reachable (fsB, App.new fsB) := .init fsB
  have h1 : Reachable stuckPre := .step 0 (.charKey 'u') h0 (by decide)
  exact .step 0 (.charKey 'y') h1 (by decide)

/-- C1: the claimed invariant `pending_update_target = Some iff mode =
ConfirmingUpdate` fails on a reachable state: after a confirm-yes whose
`Store.update` call fails, the mode is still `ConfirmingUpdate` while the
pending target has already been taken to `None`. -/
theorem update_failure_breaks_pending_invariant :
    Reachable stuckPost ∧
    stuckPost.2.input_mode = .UpdateConfirm ∧
    stuckPost.2.pending_update_config = none :=
  ⟨reachable_stuckPost, by decide, by decide⟩

/-- C2: on a failed update confirm-yes the session does set an
error-prefixed notification, but the resulting mode is not Browsing
(`Normal`): it remains `ConfirmingUpdate`, contradicting the claim that
every Store error returns the session to Browsing. -/
theorem update_error_mode_not_browsing :
    Reachable stuckPost ∧
    stuckPost.2.status_message = "- error: " ++ errMsg .noTmuxConf ∧
    stuckPost.2.input_mode ≠ .Normal :=
  ⟨reachable_stuckPost, by decide, by decide⟩

/-! ## Cancel events -/

/-- Initial filesystem for the Esc-cancel trace. -/
def fsN : FS := { live := some [7], snapshots := [("a.conf", [7])] }

/-- After apply-selected at time 1000 ms: notification set, timestamp
`some 1000`. -/
def escPre1 : FS × App := (loopIter 1000 .enter (fsN, App.new fsN)).get (by decide)

/-- After pressing `s` at 1100 ms: name-entry mode, stale timestamp kept. -/
def escPre2 : FS × App := (loopIter 1100 (.charKey 's') escPre1).get (by decide)

/-- After pressing Esc at 1200 ms. -/
def escPost : FS × App := (loopIter 1200 .esc escPre2).get (by decide)

/-- C9 counterexample: a reachable Esc cancel in name-entry mode restores
the default text but does not clear the stored notification timestamp. -/
theorem esc_cancel_keeps_timestamp :
    Reachable escPost ∧
    escPre2.2.input_mode = .Saving ∧
    loopIter 1200 .esc escPre2 = some escPost ∧
    escPost.2.status_message = defaultStatusMessage ∧
    escPost.2.status_message_time = some 1000 ∧
    ¬ escPost.2.status_message_time = none := by
  refine ⟨?_, by decide, by decide, by decide, by decide, by decide⟩
  have h0 : Reachable (fsN, App.new fsN) := .init fsN
  have h1 : Reachable escPre1 := .step 1000 .enter h0 (by decide)
  have h2 : Reachable escPre2 := .step 1100 (.charKey 's') h1 (by decide)
  exact .step 1200 .esc h2 (by decide)

/-- C9 amended: every cancel event restores the default notification text
with no filesystem side effect; n/N/Esc in update-confirmation mode also
clear the notification timestamp, while Esc in name-entry mode leaves the
stored timestamp untouched. -/
theorem cancel_restores_default (fs : FS) (app : App) (now : Nat) :
    (app.input_mode = .Saving →
      ∃ app1, tuiStep now .esc (fs, app) = some (fs, app1) ∧
        app1.status_message = defaultStatusMessage ∧
        app1.status_message_time = app.status_message_time) ∧
    (app.input_mode = .UpdateConfirm →
      ∀ ev : KeyEvent, ev = .esc ∨ ev = .charKey 'n' ∨ ev = .charKey 'N' →
      ∃ app1, tuiStep now ev (fs, app) = some (fs, app1) ∧
        app1.status_message = defaultStatusMessage ∧
        app1.status_message_time = none) := by
  obtain ⟨cfg, sel, sm, im, ib, pu, st⟩ := app
  constructor
  · intro hmode
    simp only at hmode
    subst hmode
    delta tuiStep
    dsimp only
    exact ⟨_, rfl, rfl, rfl⟩
  · intro hmode ev hev
    simp only at hmode
    subst hmode
    rcases hev with rfl | rfl | rfl
    · delta tuiStep
      dsimp only [cancelUpdate]
      exact ⟨_, rfl, rfl, rfl⟩
    · delta tuiStep
      dsimp only
      rw [if_neg (by decide), if_pos (by decide)]
      dsimp only [cancelUpdate]
      exact ⟨_, rfl, rfl, rfl⟩
    · delta tuiStep
      dsimp only
      rw [if_neg (by decide), if_pos (by decide)]
      dsimp only [cancelUpdate]
      exact ⟨_, rfl, rfl, rfl⟩

/-- Witness for `cancel_restores_default`: the Esc cancel of the concrete
trace above, and an `n` cancel in a concrete update-confirmation state. -/
theorem cancel_restores_default_witness :
    (∃ app1, tuiStep 1200 .esc (escPre2.1, escPre2.2) = some (escPre2.1, app1) ∧
        app1.status_message = defaultStatusMessage ∧
        app1.status_message_time = escPre2.2.status_message_time) ∧
    (∃ app1, tuiStep 0 (.charKey 'n') (stuckPre.1, stuckPre.2) = some (stuckPre.1, app1) ∧
        app1.status_message = defaultStatusMessage ∧
        app1.status_message_time = none) := by
  constructor
  · exact (cancel_restores_default escPre2.1 escPre2.2 1200).1 (by decide)
  · exact (cancel_restores_default stuckPre.1 stuckPre.2 0).2 (by decide)
      (.charKey 'n') (Or.inr (Or.inl rfl))

end Tmucks
